import Mathlib

/-!
Shallow embedding of the Leaf framework core (module manager, chanrpc
Server/Client, Skeleton facility gates) used to settle the specification
claims.  Go channels are modelled as explicit FIFO lists, Go panics as
explicit `Option String` / `Except String` values, and the single-threaded
round trips performed by the Skeleton loop as pure state-passing functions.
`Id` is the type of function ids (Go: any hashable `interface\x7b\x7d`) and `V`
the payload type of ordinary argument/return values.
-/

set_option linter.unusedSectionVars false

namespace Leaf

variable {Id V : Type} [DecidableEq Id]

/-- Shape of a Go value sitting in the callback position of `AsynCall`:
the three recognized callback signatures, or any other function shape. -/
inductive CbShape where
  | sh0   -- func(error)
  | sh1   -- func(interface\x7b\x7d, error)
  | sh2   -- func([]interface\x7b\x7d, error)
  | bad   -- any other shape: rejected by the type switches
deriving DecidableEq, Repr

/-- An opaque user-callback value: `tag` gives it an identity, `shape`
its dynamic Go type as seen by the `switch cb.(type)` dispatches. -/
structure CbVal where
  tag : Nat
  shape : CbShape
deriving DecidableEq, Repr

/-- A Go `interface\x7b\x7d` argument value: either an ordinary payload value
or a callback-function value. -/
inductive GoVal (V : Type) where
  | v (x : V)
  | cbv (c : CbVal)
deriving DecidableEq, Repr

/-- The `ret` field of `RetInfo`: nil / a single value / a value vector. -/
inductive RVal (V : Type) where
  | nil
  | one (x : V)
  | many (xs : List V)
deriving DecidableEq, Repr

/-- The domain-level errors produced by chanrpc (Go represents them as
`error` strings; `panicMsg` covers recovered panics such as a handler
panic value or a send on a closed channel). -/
inductive Err (Id : Type) where
  | notRegistered (id : Id)
  | typeMismatch (id : Id)
  | channelFull
  | serverClosed
  | tooManyCalls
  | serverNotAttached
  | panicMsg (msg : String)
deriving DecidableEq, Repr

/-- A registered function value.  The three kinds K0/K1/KN take the
argument vector and either return normally or panic (`Except.error`
carries the panic value rendered as a string); `bad` stands for any Go
value that is none of the three recognized function types. -/
inductive FnVal (V : Type) where
  | k0 (h : List (GoVal V) → Except String Unit)
  | k1 (h : List (GoVal V) → Except String V)
  | kn (h : List (GoVal V) → Except String (List V))
  | bad

/-- Which reply channel a `CallInfo.chanRet` points at: the posting
client's single-slot sync channel or its bounded async channel. -/
inductive ChanRef where
  | syncRet
  | asynRet
deriving DecidableEq, Repr

/-- chanrpc `CallInfo`: the unit of work posted to a Server. -/
structure CallInfo (V : Type) where
  f : FnVal V
  args : List (GoVal V)
  chanRet : Option ChanRef := none
  cb : Option CbVal := none

/-- chanrpc `RetInfo`: result value, error, and the carried callback. -/
structure RetInfo (Id V : Type) where
  ret : RVal V := .nil
  err : Option (Err Id) := none
  cb : Option CbVal := none

/-- chanrpc `Server`: the id -> function table (Go map, modelled as an
association list), the bounded call queue `ChanCall` (contents plus its
fixed capacity), and whether the channel has been closed. -/
structure Server (Id V : Type) where
  functions : List (Id × FnVal V) := []
  ChanCall : List (CallInfo V) := []
  chanCallCap : Nat := 0
  closed : Bool := false

/-- `NewServer(l)`: empty function table, empty call queue of capacity l. -/
def NewServer (l : Nat) : Server Id V :=
  { chanCallCap := l }

/-- Lookup in the function table (Go map read `s.functions[id]`). -/
def lookupFn (fns : List (Id × FnVal V)) (id : Id) : Option (FnVal V) :=
  (fns.find? (fun p => decide (p.1 = id))).map Prod.snd

/-- `Server.Register`: the function-kind type switch panics on an invalid
definition, a duplicate id panics with already-registered; only then is
the table extended.  The returned `Option String` is the panic value (the
Go function panics rather than returning), and on panic the server state
is returned unchanged, since the panic fires before any mutation. -/
def Server.Register (s : Server Id V) (id : Id) (f : FnVal V) :
    Server Id V × Option String :=
  match f with
  | .bad => (s, some "definition of function is invalid")
  | _ =>
    match lookupFn s.functions id with
    | some _ => (s, some "already registered")
    | none => ({ s with functions := s.functions ++ [(id, f)] }, none)

/-- `Server.ret`: deliveries made to `ci.chanRet` when posting `ri`.
No delivery happens for a nil reply channel; otherwise the reply (with
`ci`'s callback attached) is sent.  Reply channels are never closed by
this code base, so the send in `ret` always succeeds. -/
def retList (ci : CallInfo V) (ri : RetInfo Id V) : List (RetInfo Id V) :=
  match ci.chanRet with
  | none => []
  | some _ => [{ ri with cb := ci.cb }]

/-- The error value `exec` reports for logging after recovering a panic:
with a positive `LenStackBuf` a stack snapshot is appended. -/
def panicErr (lenStackBuf : Nat) (p : String) : Err Id :=
  if lenStackBuf > 0 then .panicMsg (p ++ ": <stack>") else .panicMsg p

/-- `Server.exec`: run `ci`'s function and post the matching `RetInfo` on
its reply channel.  A panic in the handler (or the impossible-kind
`panic("bug")` branch) is recovered; the recovery posts a `RetInfo` whose
error is the panic value.  Returns (error for `Exec` to log, deliveries
made to `ci.chanRet`). -/
def Server.exec (_s : Server Id V) (lenStackBuf : Nat) (ci : CallInfo V) :
    Option (Err Id) × List (RetInfo Id V) :=
  match ci.f with
  | .k0 h =>
    match h ci.args with
    | .ok _ => (none, retList ci {})
    | .error p => (some (panicErr lenStackBuf p), retList ci { err := some (.panicMsg p) })
  | .k1 h =>
    match h ci.args with
    | .ok x => (none, retList ci { ret := .one x })
    | .error p => (some (panicErr lenStackBuf p), retList ci { err := some (.panicMsg p) })
  | .kn h =>
    match h ci.args with
    | .ok xs => (none, retList ci { ret := .many xs })
    | .error p => (some (panicErr lenStackBuf p), retList ci { err := some (.panicMsg p) })
  | .bad => (some (panicErr lenStackBuf "bug"), retList ci { err := some (.panicMsg "bug") })

/-- `Server.Exec`: run `exec` and log (discard) the error. -/
def Server.Exec (s : Server Id V) (lenStackBuf : Nat) (ci : CallInfo V) :
    List (RetInfo Id V) :=
  (s.exec lenStackBuf ci).2

/-- The `RetInfo` posted for calls still queued when the server closes. -/
def serverClosedRi : RetInfo Id V :=
  { err := some .serverClosed }

/-- `Server.Close`: close the call queue, then drain every still-queued
call, posting a server-closed `RetInfo` to each reply channel present.
The second component lists, positionally for each queued call, the
deliveries made to that call's reply channel. -/
def Server.Close (s : Server Id V) :
    Server Id V × List (List (RetInfo Id V)) :=
  ({ s with closed := true, ChanCall := [] },
   s.ChanCall.map (fun ci => retList ci serverClosedRi))

/-- chanrpc `Client`.  The Go client holds a pointer `c.s` to its attached
server; the model keeps an `attached` flag and passes the server state
explicitly to each operation.  `chanSyncRet` always has capacity 1;
`ChanAsynRet` has the capacity given to `NewClient`. -/
structure Client (Id V : Type) where
  attached : Bool := false
  chanSyncRetCap : Nat := 1
  chanSyncRet : List (RetInfo Id V) := []
  chanAsynRetCap : Nat := 0
  ChanAsynRet : List (RetInfo Id V) := []
  pendingAsynCall : Int := 0

/-- `NewClient(l)`: sync slot of capacity 1, async queue of capacity l. -/
def NewClient (l : Nat) : Client Id V :=
  { chanAsynRetCap := l }

/-- `Client.Attach`. -/
def Client.Attach (c : Client Id V) : Client Id V :=
  { c with attached := true }

/-- `Server.Open(l)`: a fresh client attached to this server. -/
def Server.Open (_s : Server Id V) (l : Nat) : Client Id V :=
  Client.Attach (NewClient l)

/-- The arity selector `n` passed to `Client.f` (always 0, 1 or 2). -/
inductive Arity where
  | a0
  | a1
  | a2
deriving DecidableEq, Repr

/-- The type-assertion checks of `Client.f`'s switch. -/
def kindMatches : Arity → FnVal V → Bool
  | .a0, .k0 _ => true
  | .a1, .k1 _ => true
  | .a2, .kn _ => true
  | _, _ => false

/-- `Client.f`: resolve the id on the attached server and check that the
registered kind matches the requested arity. -/
def Client.f (c : Client Id V) (s : Server Id V) (id : Id) (n : Arity) :
    Except (Err Id) (FnVal V) :=
  if c.attached = false then .error .serverNotAttached
  else
    match lookupFn s.functions id with
    | none => .error (.notRegistered id)
    | some f => if kindMatches n f then .ok f else .error (.typeMismatch id)

/-- `Client.call`: send `ci` on the attached server's call queue.  A send
on a closed channel panics; the recover turns it into an error.  A
blocking send on an open channel eventually succeeds (the serving loop
drains the queue); a non-blocking send fails with channel-full when the
queue is at capacity. -/
def Client.call (_c : Client Id V) (s : Server Id V) (ci : CallInfo V)
    (block : Bool) : Server Id V × Option (Err Id) :=
  if s.closed then (s, some (.panicMsg "send on closed channel"))
  else if block then ({ s with ChanCall := s.ChanCall ++ [ci] }, none)
  else if s.ChanCall.length < s.chanCallCap then
    ({ s with ChanCall := s.ChanCall ++ [ci] }, none)
  else (s, some .channelFull)

/-- Result of a synchronous round trip (`Call0`/`Call1`): the received
reply's value and error, plus whether a `CallInfo` was posted to the
server queue at all. -/
structure SyncRes (Id V : Type) where
  ret : RVal V := .nil
  err : Option (Err Id) := none
  posted : Bool := false

/-- `Client.Call0`: kind check, blocking post with the sync reply slot,
then receive the single reply the serving loop produces for this call.
The net effect on the server queue is nil (the serving loop dequeues the
posted call), so the server state is unchanged by the round trip. -/
def Client.Call0 (c : Client Id V) (s : Server Id V) (lenStackBuf : Nat)
    (id : Id) (args : List (GoVal V)) : SyncRes Id V :=
  match c.f s id .a0 with
  | .error e => { err := some e }
  | .ok f =>
    let ci : CallInfo V := { f := f, args := args, chanRet := some .syncRet }
    match (c.call s ci true).2 with
    | some e => { err := some e }
    | none =>
      let ri := ((s.exec lenStackBuf ci).2).headD {}
      { ret := ri.ret, err := ri.err, posted := true }

/-- `Client.Call1`: as `Call0` with arity 1, returning `(ri.ret, ri.err)`. -/
def Client.Call1 (c : Client Id V) (s : Server Id V) (lenStackBuf : Nat)
    (id : Id) (args : List (GoVal V)) : SyncRes Id V :=
  match c.f s id .a1 with
  | .error e => { err := some e }
  | .ok f =>
    let ci : CallInfo V := { f := f, args := args, chanRet := some .syncRet }
    match (c.call s ci true).2 with
    | some e => { err := some e }
    | none =>
      let ri := ((s.exec lenStackBuf ci).2).headD {}
      { ret := ri.ret, err := ri.err, posted := true }

/-- Go's `assert`: nil stays nil, a vector is unwrapped, and a single
value makes the type assertion panic (`none`). -/
def rassert : RVal V → Option (List V)
  | .nil => some []
  | .one _ => none
  | .many xs => some xs

/-- Result of `CallN`: the asserted vector (`none` models both the early
nil return and the impossible assertion panic), error, posted flag. -/
structure CallNRes (Id V : Type) where
  ret : Option (List V) := none
  err : Option (Err Id) := none
  posted : Bool := false

/-- `Client.CallN`: as `Call0` with arity 2, returning `assert(ri.ret)`. -/
def Client.CallN (c : Client Id V) (s : Server Id V) (lenStackBuf : Nat)
    (id : Id) (args : List (GoVal V)) : CallNRes Id V :=
  match c.f s id .a2 with
  | .error e => { err := some e }
  | .ok f =>
    let ci : CallInfo V := { f := f, args := args, chanRet := some .syncRet }
    match (c.call s ci true).2 with
    | some e => { err := some e }
    | none =>
      let ri := ((s.exec lenStackBuf ci).2).headD {}
      { ret := rassert ri.ret, err := ri.err, posted := true }

/-- `Server.Call0`: open a transient client (`Open 0`) and call through it. -/
def Server.Call0 (s : Server Id V) (lenStackBuf : Nat) (id : Id)
    (args : List (GoVal V)) : SyncRes Id V :=
  (s.Open 0).Call0 s lenStackBuf id args

/-- `Server.Call1`: open a transient client (`Open 0`) and call through it. -/
def Server.Call1 (s : Server Id V) (lenStackBuf : Nat) (id : Id)
    (args : List (GoVal V)) : SyncRes Id V :=
  (s.Open 0).Call1 s lenStackBuf id args

/-- `Server.CallN`: open a transient client (`Open 0`) and call through it. -/
def Server.CallN (s : Server Id V) (lenStackBuf : Nat) (id : Id)
    (args : List (GoVal V)) : CallNRes Id V :=
  (s.Open 0).CallN s lenStackBuf id args

/-- A user-callback invocation performed by `execCb`: which callback ran
and with which result value and error. -/
structure CbEvent (Id V : Type) where
  cb : CbVal
  ret : RVal V
  err : Option (Err Id)
deriving DecidableEq, Repr

/-- `execCb`: dispatch on the callback's dynamic shape and invoke it with
the reply's value and error.  A nil or unrecognized callback hits the
`panic("bug")` default, which `execCb`'s own recover catches and logs, so
no invocation happens; panics inside the user callback are likewise
recovered (the invocation still counts as having run). -/
def execCb (ri : RetInfo Id V) : List (CbEvent Id V) :=
  match ri.cb with
  | none => []
  | some c =>
    match c.shape with
    | .bad => []
    | _ => [{ cb := c, ret := ri.ret, err := ri.err }]

/-- `Client.asynCall`: resolve the function; on lookup failure push a
synthetic error reply carrying the callback onto this client's async
reply queue; otherwise post non-blockingly to the server, again pushing a
synthetic reply if the post fails.  Returns the updated client and server. -/
def Client.asynCall (c : Client Id V) (s : Server Id V) (id : Id)
    (args : List (GoVal V)) (cb : CbVal) (n : Arity) :
    Client Id V × Server Id V :=
  match c.f s id n with
  | .error e =>
    ({ c with ChanAsynRet := c.ChanAsynRet ++ [{ err := some e, cb := some cb }] }, s)
  | .ok f =>
    match c.call s { f := f, args := args, chanRet := some .asynRet, cb := some cb } false with
    | (s2, none) => (c, s2)
    | (s2, some e) =>
      ({ c with ChanAsynRet := c.ChanAsynRet ++ [{ err := some e, cb := some cb }] }, s2)

/-- Classify the last argument of `AsynCall` as a callback: the three
recognized shapes select the required server kind; anything else is
rejected by the type switch. -/
def cbShapeOf : GoVal V → Option (CbVal × Arity)
  | .v _ => none
  | .cbv c =>
    match c.shape with
    | .sh0 => some (c, .a0)
    | .sh1 => some (c, .a1)
    | .sh2 => some (c, .a2)
    | .bad => none

/-- Result of `Client.AsynCall`: new client and server states, the
`execCb` invocations performed inline (synchronously, before `AsynCall`
returns), and the panic value when the call fails fast. -/
structure AsynRes (Id V : Type) where
  client : Client Id V
  server : Server Id V
  inline : List (CbEvent Id V) := []
  panicked : Option String := none

/-- `Client.AsynCall`: the last variadic argument is the callback.  An
empty argument list and an unrecognized callback shape panic before
anything else happens.  When the outstanding counter has reached the
async-queue capacity the callback is invoked inline with too-many-calls
and nothing is enqueued; otherwise `asynCall` runs and the counter is
incremented. -/
def Client.AsynCall (c : Client Id V) (s : Server Id V) (id : Id)
    (_args : List (GoVal V)) : AsynRes Id V :=
  match _args.getLast? with
  | none => { client := c, server := s, panicked := some "callback function not found" }
  | some last =>
    match cbShapeOf last with
    | none =>
      { client := c, server := s,
        panicked := some "definition of callback function is invalid" }
    | some (cb, n) =>
      if c.pendingAsynCall ≥ (c.chanAsynRetCap : Int) then
        { client := c, server := s,
          inline := execCb { err := some .tooManyCalls, cb := some cb } }
      else
        let p := c.asynCall s id _args.dropLast cb n
        { client := { p.1 with pendingAsynCall := p.1.pendingAsynCall + 1 },
          server := p.2 }

/-- `Client.Cb`: decrement the outstanding counter, then run the callback. -/
def Client.Cb (c : Client Id V) (ri : RetInfo Id V) :
    Client Id V × List (CbEvent Id V) :=
  ({ c with pendingAsynCall := c.pendingAsynCall - 1 }, execCb ri)

/-- `Client.Idle`. -/
def Client.Idle (c : Client Id V) : Bool :=
  c.pendingAsynCall = 0

/-! ## Skeleton facility gates

Only the fail-fast gates of the public Skeleton operations are modelled:
each operation either panics (`Except.error`, with the Go panic string)
before doing anything, or performs its underlying action (`Except.ok`
with a tag naming the action taken). -/

/-- The underlying action a Skeleton operation performs when it passes
its gate. -/
inductive SkelAct where
  | timerSet
  | cronSet
  | goSubmitted
  | linearCtx
  | asynIssued
  | rpcRegistered
  | commandRegistered
deriving DecidableEq, Repr

/-- Skeleton configuration after `Init` (negative lengths are coerced to
0 there, so `Nat` fields; `hasChanRPCServer` records whether the user
supplied `ChanRPCServer`). -/
structure Skeleton where
  GoLen : Nat := 0
  TimerDispatcherLen : Nat := 0
  AsynCallLen : Nat := 0
  hasChanRPCServer : Bool := false
deriving DecidableEq, Repr

/-- `Skeleton.AfterFunc`: panics unless the timer dispatcher is enabled. -/
def Skeleton.AfterFunc (sk : Skeleton) : Except String SkelAct :=
  if sk.TimerDispatcherLen = 0 then .error "invalid TimerDispatcherLen"
  else .ok .timerSet

/-- `Skeleton.CronFunc`: panics unless the timer dispatcher is enabled. -/
def Skeleton.CronFunc (sk : Skeleton) : Except String SkelAct :=
  if sk.TimerDispatcherLen = 0 then .error "invalid TimerDispatcherLen"
  else .ok .cronSet

/-- `Skeleton.Go`: panics unless the goroutine pool is enabled. -/
def Skeleton.Go (sk : Skeleton) : Except String SkelAct :=
  if sk.GoLen = 0 then .error "invalid GoLen" else .ok .goSubmitted

/-- `Skeleton.NewLinearContext`: panics unless the pool is enabled. -/
def Skeleton.NewLinearContext (sk : Skeleton) : Except String SkelAct :=
  if sk.GoLen = 0 then .error "invalid GoLen" else .ok .linearCtx

/-- `Skeleton.AsynCall`: panics unless the async client is enabled. -/
def Skeleton.AsynCall (sk : Skeleton) : Except String SkelAct :=
  if sk.AsynCallLen = 0 then .error "invalid AsynCallLen" else .ok .asynIssued

/-- `Skeleton.RegisterChanRPC`: panics unless the user supplied a server. -/
def Skeleton.RegisterChanRPC (sk : Skeleton) : Except String SkelAct :=
  if sk.hasChanRPCServer = false then .error "invalid ChanRPCServer"
  else .ok .rpcRegistered

/-- `Skeleton.RegisterCommand`: performs no facility check at all; it
unconditionally registers the command on the always-present command
server via `console.Register`. -/
def Skeleton.RegisterCommand (_sk : Skeleton) : Except String SkelAct :=
  .ok .commandRegistered

/-! ## Module manager

Each registered module carries a capacity-1 close-signal channel, a
completion latch for its `Run` goroutine, a count of how often its
`OnDestroy` has run, and its `OnDestroy` behavior (`some p` = it panics
with value `p` when invoked; the panic is recovered inside `destroy`). -/

/-- State and behavior of one registered module. -/
structure ModuleSt where
  closeSigBuf : Nat := 0
  runDone : Bool := false
  destroyed : Nat := 0
  onDestroyPanics : Option String := none
deriving DecidableEq, Repr

/-- Events observable during `Destroy` (`i` is the registration index). -/
inductive MEvent where
  | sentClose (i : Nat)
  | runReturned (i : Nat)
  | destroyedEv (i : Nat) (panicked : Option String)
deriving DecidableEq, Repr

/-- `destroy(m)`: invoke `OnDestroy` under `recover`; whether or not it
panics, the call completes and the panic value is merely logged. -/
def destroyMod (i : Nat) (m : ModuleSt) : ModuleSt × MEvent :=
  ({ m with destroyed := m.destroyed + 1 }, .destroyedEv i m.onDestroyPanics)

/-- One iteration of the `Destroy` loop on module `i`: send one value
into its close signal, wait for `Run` to return, then `destroy(m)`.
If `Run` is still active it is selecting on the close signal, consumes
the value and returns (releasing the latch).  If `Run` already returned,
the value stays buffered; a send on a full capacity-1 buffer would block
forever, which `none` models. -/
def destroyOne (i : Nat) (m : ModuleSt) : Option (ModuleSt × List MEvent) :=
  if m.runDone then
    if m.closeSigBuf ≥ 1 then none
    else
      let (m2, ev) := destroyMod i { m with closeSigBuf := m.closeSigBuf + 1 }
      some (m2, [.sentClose i, ev])
  else
    let (m2, ev) := destroyMod i { m with runDone := true }
    some (m2, [.sentClose i, .runReturned i, ev])

/-- The `Destroy` loop from index `n` onward: Go iterates the registry
from the last index down to 0, so the recursion handles the tail (the
later-registered modules) before the head.  `none` models a `Destroy`
call that blocks forever. -/
def destroyFrom (n : Nat) : List ModuleSt → Option (List ModuleSt × List MEvent)
  | [] => some ([], [])
  | m :: rest => do
    let (rest2, evsRest) ← destroyFrom (n + 1) rest
    let (m2, evsM) ← destroyOne n m
    return (m2 :: rest2, evsRest ++ evsM)

/-- `module.Destroy`: tear the whole registry down in reverse
registration order. -/
def Destroy (ms : List ModuleSt) : Option (List ModuleSt × List MEvent) :=
  destroyFrom 0 ms

/-- A freshly registered module whose `Run` is still active. -/
def mkFresh (p : Option String) : ModuleSt :=
  { onDestroyPanics := p }

/-- A module's state after one complete `Destroy` pass from fresh. -/
def doneModule (p : Option String) : ModuleSt :=
  { runDone := true, destroyed := 1, onDestroyPanics := p }

/-- A module's state after a second complete `Destroy` pass. -/
def twiceModule (p : Option String) : ModuleSt :=
  { closeSigBuf := 1, runDone := true, destroyed := 2, onDestroyPanics := p }

/-- The event trace `Destroy` produces on a fresh registry whose modules
have `OnDestroy` behaviors `ps` (deepest-registered module first). -/
def freshTrace (n : Nat) : List (Option String) → List MEvent
  | [] => []
  | p :: rest =>
    freshTrace (n + 1) rest ++ [.sentClose n, .runReturned n, .destroyedEv n p]

/-- The event trace of a second `Destroy` pass. -/
def secondTrace (n : Nat) : List (Option String) → List MEvent
  | [] => []
  | p :: rest => secondTrace (n + 1) rest ++ [.sentClose n, .destroyedEv n p]

/-- The registration index of a destroy event, if it is one. -/
def destroyedIdx : MEvent → Option Nat
  | .destroyedEv i _ => some i
  | _ => none

/-! ## Closed async trace machine (client + its attached server)

The interleavings the Skeleton loops produce for one async client and its
target server: `asyn` is a user `AsynCall` on the caller's loop, `srv`
lets the target server's loop dequeue and `Exec` one call, `cbRecv` lets
the caller's loop receive one async reply and run `Cb`. -/

/-- One operation of the closed system. -/
inductive Op (Id V : Type) where
  | asyn (id : Id) (args : List (GoVal V)) (cbArg : GoVal V)
  | srv
  | cbRecv

/-- Combined state, plus instrumentation: `events` records every callback
invocation that has run, `enqOk` counts the `AsynCall`s whose non-blocking
enqueue into the server's call queue succeeded. -/
structure CSState (Id V : Type) where
  client : Client Id V
  server : Server Id V
  events : List (CbEvent Id V) := []
  enqOk : Nat := 0

/-- Calls sitting in a server queue that will reply to the async queue. -/
def asynInFlight (s : Server Id V) : Nat :=
  (s.ChanCall.filter (fun ci => ci.chanRet = some ChanRef.asynRet)).length

/-- One step of the closed system. -/
def stepCS (lenStackBuf : Nat) (st : CSState Id V) : Op Id V → CSState Id V
  | .asyn id args cbArg =>
    let r := st.client.AsynCall st.server id (args ++ [cbArg])
    { client := r.client, server := r.server,
      events := st.events ++ r.inline,
      enqOk :=
        if st.server.ChanCall.length < r.server.ChanCall.length then st.enqOk + 1
        else st.enqOk }
  | .srv =>
    match st.server.ChanCall with
    | [] => st
    | ci :: rest =>
      let deliv := st.server.Exec lenStackBuf ci
      let srv2 : Server Id V := { st.server with ChanCall := rest }
      match ci.chanRet with
      | some .asynRet =>
        { st with server := srv2,
                  client := { st.client with ChanAsynRet := st.client.ChanAsynRet ++ deliv } }
      | some .syncRet =>
        { st with server := srv2,
                  client := { st.client with chanSyncRet := st.client.chanSyncRet ++ deliv } }
      | none => { st with server := srv2 }
  | .cbRecv =>
    match st.client.ChanAsynRet with
    | [] => st
    | ri :: rest =>
      let p := (Client.Cb { st.client with ChanAsynRet := rest } ri)
      { st with client := p.1, events := st.events ++ p.2 }

/-- Run a whole operation sequence. -/
def runCS (lenStackBuf : Nat) (st : CSState Id V) (ops : List (Op Id V)) :
    CSState Id V :=
  ops.foldl (stepCS lenStackBuf) st

/-- The initial closed system: a fresh attached client of capacity `cap`
and a fresh server with call-queue capacity `l`. -/
def initCS (cap l : Nat) : CSState Id V :=
  { client := Client.Attach (NewClient cap), server := NewServer l }

/-- The counter invariant: the outstanding count is within bounds and
equals queued replies plus calls still in flight at the server. -/
def C3inv (st : CSState Id V) : Prop :=
  0 ≤ st.client.pendingAsynCall ∧
  st.client.pendingAsynCall ≤ (st.client.chanAsynRetCap : Int) ∧
  st.client.pendingAsynCall =
    (st.client.ChanAsynRet.length : Int) + (asynInFlight st.server : Int)

/-! ## Concrete fixtures used by witness theorems -/

/-- A K0 call with a reply queue. -/
def ciW : CallInfo Nat :=
  { f := FnVal.k0 (fun _ => Except.ok ()), args := [],
    chanRet := some ChanRef.syncRet }

/-- A server holding `ciW` in its call queue. -/
def srvW : Server Nat Nat :=
  { functions := [], ChanCall := [ciW], chanCallCap := 1 }

/-- A server with one registered K0 handler under id 1. -/
def srvReg : Server Nat Nat :=
  { functions := [(1, FnVal.k0 (fun _ => Except.ok ()))] }

/-- A server with a K1 handler under id 1 (so arity 0 and arity 2 calls
mismatch). -/
def srvK1 : Server Nat Nat :=
  { functions := [(1, FnVal.k1 (fun _ => Except.ok 8))] }

/-- A server with a panicking K0 handler under id 1 and a working K1
handler under id 2. -/
def srvPanic : Server Nat Nat :=
  { functions := [(1, FnVal.k0 (fun _ => Except.error "division by zero")),
                  (2, FnVal.k1 (fun _ => Except.ok 8))] }

/-- An attached client whose async capacity is already used up
(capacity 1, one outstanding call). -/
def cliFull : Client Nat Nat :=
  { Client.Attach (NewClient 1) with pendingAsynCall := 1 }

/-! ## Helper lemmas -/

/-- `ret` delivers exactly one reply when a reply channel is present. -/
theorem retList_length_of_isSome (ci : CallInfo V) (ri : RetInfo Id V)
    (h : ci.chanRet.isSome) : (retList ci ri).length = 1 := by
  cases hc : ci.chanRet with
  | none => rw [hc] at h; simp at h
  | some r => simp [retList, hc]

/-- `exec` delivers exactly one reply when a reply channel is present,
whichever kind the function is and whether or not it panics. -/
theorem exec_deliv_length (s : Server Id V) (L : Nat) (ci : CallInfo V)
    (h : ci.chanRet.isSome) : ((s.exec L ci).2).length = 1 := by
  rcases ci with ⟨f, args, cr, cb⟩
  cases f with
  | k0 g =>
    cases hg : g args <;>
      simpa [Server.exec, hg] using retList_length_of_isSome ⟨.k0 g, args, cr, cb⟩ _ h
  | k1 g =>
    cases hg : g args <;>
      simpa [Server.exec, hg] using retList_length_of_isSome ⟨.k1 g, args, cr, cb⟩ _ h
  | kn g =>
    cases hg : g args <;>
      simpa [Server.exec, hg] using retList_length_of_isSome ⟨.kn g, args, cr, cb⟩ _ h
  | bad =>
    simpa [Server.exec] using retList_length_of_isSome ⟨.bad, args, cr, cb⟩ _ h

/-! ## Claim theorems -/

/-- C1: for every `CallInfo` with a non-nil reply queue, exactly one
`RetInfo` is delivered to that reply queue — by `exec` whether the
registered function returns normally or panics (any kind, any behavior),
and by the `Close` drain (positionally, each queued call with a reply
queue receives exactly the one server-closed reply); never zero, never
two. -/
theorem C1_exactly_one_reply (s : Server Id V) (L : Nat) (ci : CallInfo V)
    (h : ci.chanRet.isSome) :
    ((s.exec L ci).2).length = 1 ∧
    (retList ci (serverClosedRi : RetInfo Id V)).length = 1 ∧
    (∀ i : Nat, s.ChanCall[i]? = some ci →
      ((s.Close).2)[i]? =
        some [{ ret := .nil, err := some Err.serverClosed, cb := ci.cb }]) := by
  refine ⟨exec_deliv_length s L ci h, retList_length_of_isSome ci _ h, ?_⟩
  intro i hi
  rcases hc : ci.chanRet with _ | r
  · rw [hc] at h; simp at h
  · simp [Server.Close, List.getElem?_map, hi, retList, hc, serverClosedRi]

/-- Witness for C1 at a concrete queued call. -/
theorem C1_exactly_one_reply_witness :
    (ciW.chanRet.isSome) ∧
    (((srvW.exec 0 ciW).2).length = 1 ∧
     (retList ciW (serverClosedRi : RetInfo Nat Nat)).length = 1 ∧
     (∀ i : Nat, srvW.ChanCall[i]? = some ciW →
       ((srvW.Close).2)[i]? =
         some [{ ret := .nil, err := some Err.serverClosed, cb := ciW.cb }])) :=
  ⟨rfl, C1_exactly_one_reply srvW 0 ciW rfl⟩

/-- C6: registering an id that is already present fails with the
already-registered panic, and the function table (hence also the call
queue) is unchanged: the returned server is the original one and the
original handler remains registered. -/
theorem C6_reregister_fails (s : Server Id V) (id : Id) (f g : FnVal V)
    (hf : f ≠ FnVal.bad) (hg : lookupFn s.functions id = some g) :
    s.Register id f = (s, some "already registered") ∧
    lookupFn (s.Register id f).1.functions id = some g := by
  have key : s.Register id f = (s, some "already registered") := by
    cases f with
    | bad => exact absurd rfl hf
    | k0 h => simp [Server.Register, hg]
    | k1 h => simp [Server.Register, hg]
    | kn h => simp [Server.Register, hg]
  exact ⟨key, by rw [key]; exact hg⟩

/-- Witness for C6: re-registering id 1 on `srvReg`. -/
theorem C6_reregister_fails_witness :
    ((FnVal.k1 (fun _ => Except.ok 0) : FnVal Nat) ≠ FnVal.bad) ∧
    (lookupFn srvReg.functions 1 = some (FnVal.k0 (fun _ => Except.ok ()))) ∧
    (srvReg.Register 1 (FnVal.k1 (fun _ => Except.ok 0)) =
        (srvReg, some "already registered") ∧
     lookupFn (srvReg.Register 1 (FnVal.k1 (fun _ => Except.ok 0))).1.functions 1 =
        some (FnVal.k0 (fun _ => Except.ok ()))) :=
  ⟨fun h => FnVal.noConfusion h, rfl,
   C6_reregister_fails srvReg 1 _ _ (fun h => FnVal.noConfusion h) rfl⟩

/-- C7 counterexample: the claim says the transient client opened by
`Server.Call0/Call1/CallN` has a sync reply slot of capacity 0; in the
code `NewClient` always gives `chanSyncRet` capacity 1 (the `l` argument
of `Open 0` sizes the async queue instead). -/
theorem C7_sync_slot_capacity_not_zero :
    ¬ (((NewServer 0 : Server Nat Nat).Open 0).chanSyncRetCap = 0) := by
  decide

/-- C7 (amended): `Server.Call0/Call1/CallN` open a transient client
whose async reply queue has capacity 0 and whose sync reply slot has
capacity 1, invoke through it, and await the reply; calling any of them
with an arity that does not match the registered kind yields a
return-type-mismatch error without enqueuing anything. -/
theorem C7_transient_client_and_mismatch (s : Server Id V) (L : Nat)
    (id : Id) (args : List (GoVal V)) (g : FnVal V)
    (hg : lookupFn s.functions id = some g) :
    ((s.Open 0).chanSyncRetCap = 1 ∧ (s.Open 0).chanAsynRetCap = 0) ∧
    (kindMatches .a0 g = false →
      s.Call0 L id args =
        { ret := .nil, err := some (Err.typeMismatch id), posted := false }) ∧
    (kindMatches .a1 g = false →
      s.Call1 L id args =
        { ret := .nil, err := some (Err.typeMismatch id), posted := false }) ∧
    (kindMatches .a2 g = false →
      s.CallN L id args =
        { ret := none, err := some (Err.typeMismatch id), posted := false }) := by
  refine ⟨⟨rfl, rfl⟩, fun hm => ?_, fun hm => ?_, fun hm => ?_⟩
  · simp [Server.Call0, Client.Call0, Client.f, Server.Open, Client.Attach,
      NewClient, hg, hm]
  · simp [Server.Call1, Client.Call1, Client.f, Server.Open, Client.Attach,
      NewClient, hg, hm]
  · simp [Server.CallN, Client.CallN, Client.f, Server.Open, Client.Attach,
      NewClient, hg, hm]

/-- Witness for the amended C7 at `srvK1`. -/
theorem C7_transient_client_and_mismatch_witness :
    (lookupFn srvK1.functions 1 = some (FnVal.k1 (fun _ => Except.ok 8))) ∧
    (((srvK1.Open 0).chanSyncRetCap = 1 ∧ (srvK1.Open 0).chanAsynRetCap = 0) ∧
     (kindMatches .a0 (FnVal.k1 (fun _ => (Except.ok 8 : Except String Nat))) = false →
       srvK1.Call0 0 1 [] =
         { ret := .nil, err := some (Err.typeMismatch 1), posted := false }) ∧
     (kindMatches .a1 (FnVal.k1 (fun _ => (Except.ok 8 : Except String Nat))) = false →
       srvK1.Call1 0 1 [] =
         { ret := .nil, err := some (Err.typeMismatch 1), posted := false }) ∧
     (kindMatches .a2 (FnVal.k1 (fun _ => (Except.ok 8 : Except String Nat))) = false →
       srvK1.CallN 0 1 [] =
         { ret := none, err := some (Err.typeMismatch 1), posted := false })) :=
  ⟨rfl, C7_transient_client_and_mismatch srvK1 0 1 [] _ rfl⟩

/-- C8 counterexample: the claim says every listed public Skeleton
operation gates on its facility and fails fast when disabled; on a
Skeleton with every facility disabled, `RegisterCommand` performs its
registration anyway — the code contains no gate for it. -/
theorem C8_RegisterCommand_not_gated :
    Skeleton.RegisterCommand
        { GoLen := 0, TimerDispatcherLen := 0, AsynCallLen := 0,
          hasChanRPCServer := false } =
      Except.ok SkelAct.commandRegistered := rfl

/-- C8 (amended): `AfterFunc`, `CronFunc`, `Go`, `NewLinearContext`,
`AsynCall` and `RegisterChanRPC` each gate on their facility and panic
before performing any action when it is disabled; `RegisterCommand`
performs no facility check and always registers. -/
theorem C8_facility_gates (sk : Skeleton) :
    (sk.TimerDispatcherLen = 0 →
      sk.AfterFunc = .error "invalid TimerDispatcherLen" ∧
      sk.CronFunc = .error "invalid TimerDispatcherLen") ∧
    (sk.GoLen = 0 →
      sk.Go = .error "invalid GoLen" ∧
      sk.NewLinearContext = .error "invalid GoLen") ∧
    (sk.AsynCallLen = 0 → sk.AsynCall = .error "invalid AsynCallLen") ∧
    (sk.hasChanRPCServer = false →
      sk.RegisterChanRPC = .error "invalid ChanRPCServer") ∧
    sk.RegisterCommand = .ok .commandRegistered := by
  refine ⟨fun h => ⟨?_, ?_⟩, fun h => ⟨?_, ?_⟩, fun h => ?_, fun h => ?_, rfl⟩ <;>
    simp [Skeleton.AfterFunc, Skeleton.CronFunc, Skeleton.Go,
      Skeleton.NewLinearContext, Skeleton.AsynCall, Skeleton.RegisterChanRPC, h]

/-- Witness for the amended C8 on the fully disabled Skeleton. -/
theorem C8_facility_gates_witness :
    Skeleton.AfterFunc {} = .error "invalid TimerDispatcherLen" ∧
    Skeleton.CronFunc {} = .error "invalid TimerDispatcherLen" ∧
    Skeleton.Go {} = .error "invalid GoLen" ∧
    Skeleton.NewLinearContext {} = .error "invalid GoLen" ∧
    Skeleton.AsynCall {} = .error "invalid AsynCallLen" ∧
    Skeleton.RegisterChanRPC {} = .error "invalid ChanRPCServer" :=
  ⟨((C8_facility_gates {}).1 rfl).1, ((C8_facility_gates {}).1 rfl).2,
   ((C8_facility_gates {}).2.1 rfl).1, ((C8_facility_gates {}).2.1 rfl).2,
   (C8_facility_gates {}).2.2.1 rfl, (C8_facility_gates {}).2.2.2.1 rfl⟩

/-- C4: a synchronous call whose handler panics returns the panic value
as an error — the recover in `exec` posts the error reply, so the caller
receives it rather than hanging — and the server keeps working: a
subsequent `Call1` on a correctly-working K1 handler of the same server
returns that handler's result with a nil error.  (`exec` never mutates
the server, and the round trip's enqueue is consumed by the serving
loop, so the server state after the failed call is the original `s`.) -/
theorem C4_handler_panic_recovered (s : Server Id V) (L : Nat)
    (id1 id2 : Id) (h0 : List (GoVal V) → Except String Unit)
    (h1 : List (GoVal V) → Except String V)
    (args1 args2 : List (GoVal V)) (p : String) (v : V)
    (hs : s.closed = false)
    (r1 : lookupFn s.functions id1 = some (FnVal.k0 h0))
    (hp : h0 args1 = .error p)
    (r2 : lookupFn s.functions id2 = some (FnVal.k1 h1))
    (hv : h1 args2 = .ok v) :
    (s.Call0 L id1 args1).err = some (Err.panicMsg p) ∧
    s.Call1 L id2 args2 = { ret := RVal.one v, err := none, posted := true } := by
  constructor
  · simp [Server.Call0, Client.Call0, Client.f, Server.Open, Client.Attach,
      NewClient, Client.call, Server.exec, retList, kindMatches, r1, hp, hs]
  · simp [Server.Call1, Client.Call1, Client.f, Server.Open, Client.Attach,
      NewClient, Client.call, Server.exec, retList, kindMatches, r2, hv, hs]

/-- Witness for C4 on `srvPanic`. -/
theorem C4_handler_panic_recovered_witness :
    (srvPanic.closed = false) ∧
    (lookupFn srvPanic.functions 1 =
      some (FnVal.k0 (fun _ => Except.error "division by zero"))) ∧
    ((fun (_ : List (GoVal Nat)) => (Except.error "division by zero" : Except String Unit)) [] =
      Except.error "division by zero") ∧
    (lookupFn srvPanic.functions 2 = some (FnVal.k1 (fun _ => Except.ok 8))) ∧
    ((fun (_ : List (GoVal Nat)) => (Except.ok 8 : Except String Nat)) [] = Except.ok 8) ∧
    ((srvPanic.Call0 0 1 []).err = some (Err.panicMsg "division by zero") ∧
     srvPanic.Call1 0 2 [] = { ret := RVal.one 8, err := none, posted := true }) :=
  ⟨rfl, rfl, rfl, rfl, rfl,
   C4_handler_panic_recovered srvPanic 0 1 2 _ _ [] [] "division by zero" 8
     rfl rfl rfl rfl rfl⟩

/-- C2: when the outstanding async counter has reached (or exceeds) the
async-reply-queue capacity, a further `AsynCall` is rejected immediately:
the user callback is run inline with the too-many-calls error, nothing is
enqueued to the server (the server state is unchanged), the counter is
not incremented, and the whole client state is unchanged. -/
theorem C2_too_many_calls_inline (c : Client Id V) (s : Server Id V)
    (id : Id) (args : List (GoVal V)) (cb : CbVal)
    (hsh : cb.shape ≠ CbShape.bad)
    (hfull : c.pendingAsynCall ≥ (c.chanAsynRetCap : Int)) :
    c.AsynCall s id (args ++ [GoVal.cbv cb]) =
      { client := c, server := s,
        inline := [{ cb := cb, ret := RVal.nil, err := some Err.tooManyCalls }],
        panicked := none } := by
  rcases cb with ⟨tag, sh⟩
  cases sh with
  | bad => exact absurd rfl hsh
  | sh0 =>
    simp only [Client.AsynCall, List.getLast?_concat, cbShapeOf]
    rw [if_pos hfull]
    simp [execCb]
  | sh1 =>
    simp only [Client.AsynCall, List.getLast?_concat, cbShapeOf]
    rw [if_pos hfull]
    simp [execCb]
  | sh2 =>
    simp only [Client.AsynCall, List.getLast?_concat, cbShapeOf]
    rw [if_pos hfull]
    simp [execCb]

/-- Witness for C2: a second concurrent async call on a capacity-1
client is rejected inline. -/
theorem C2_too_many_calls_inline_witness :
    ((⟨0, CbShape.sh0⟩ : CbVal).shape ≠ CbShape.bad) ∧
    (cliFull.pendingAsynCall ≥ (cliFull.chanAsynRetCap : Int)) ∧
    (cliFull.AsynCall (NewServer 1) 5 ([] ++ [GoVal.cbv ⟨0, CbShape.sh0⟩]) =
      { client := cliFull, server := NewServer 1,
        inline := [{ cb := ⟨0, CbShape.sh0⟩, ret := RVal.nil,
                     err := some Err.tooManyCalls }],
        panicked := none }) :=
  ⟨by decide, by decide,
   C2_too_many_calls_inline cliFull (NewServer 1) 5 [] ⟨0, CbShape.sh0⟩
     (by decide) (by decide)⟩

/-- C10: `AsynCall` reads its last variadic argument as the callback:
with an empty argument list it panics with callback-not-found, and with a
final argument that is not one of the three recognized callback shapes
(an ordinary value, or a function of any other shape) it panics with
invalid-callback-definition — in each case before any enqueue, any
counter change, or any callback invocation (client and server states are
returned unchanged and no inline callback runs). -/
theorem C10_callback_validation (c : Client Id V) (s : Server Id V) (id : Id) :
    (c.AsynCall s id [] =
      { client := c, server := s, inline := [],
        panicked := some "callback function not found" }) ∧
    (∀ (args : List (GoVal V)) (x : V),
      c.AsynCall s id (args ++ [GoVal.v x]) =
        { client := c, server := s, inline := [],
          panicked := some "definition of callback function is invalid" }) ∧
    (∀ (args : List (GoVal V)) (t : Nat),
      c.AsynCall s id (args ++ [GoVal.cbv ⟨t, CbShape.bad⟩]) =
        { client := c, server := s, inline := [],
          panicked := some "definition of callback function is invalid" }) := by
  refine ⟨rfl, fun args x => ?_, fun args t => ?_⟩ <;>
    simp [Client.AsynCall, List.getLast?_concat, cbShapeOf]

/-- On a registry of fresh modules (`Run` still active), the `Destroy`
loop from index `n` completes, leaves every module run-returned and
destroyed exactly once, and emits per module the triple
close-signal / run-returned / destroyed, later-registered modules first. -/
theorem destroyFrom_fresh (ps : List (Option String)) (n : Nat) :
    destroyFrom n (ps.map mkFresh) =
      some (ps.map doneModule, freshTrace n ps) := by
  induction ps generalizing n with
  | nil => rfl
  | cons p rest ih =>
    simp [destroyFrom, ih (n + 1), destroyOne, destroyMod, mkFresh,
      doneModule, freshTrace]

/-- The destroy events of a fresh-pass trace are exactly the indices in
reverse order. -/
theorem freshTrace_destroyedIdx (ps : List (Option String)) (n : Nat) :
    (freshTrace n ps).filterMap destroyedIdx = (List.range' n ps.length).reverse := by
  induction ps generalizing n with
  | nil => rfl
  | cons p rest ih =>
    simp [freshTrace, List.filterMap_append, ih (n + 1), destroyedIdx,
      List.range'_succ]

/-- C5: on any sequence of freshly registered modules, whatever each
module's `OnDestroy` does (including panicking with an arbitrary value),
`Destroy` completes; every module's `OnDestroy` runs exactly once, in
reverse registration order; and each module's destroy event is
immediately preceded by its run-returned event (its `Run` consumed the
close signal and returned before `OnDestroy` started), as the full event
trace shows. -/
theorem C5_destroy_reverse_order (ps : List (Option String)) :
    Destroy (ps.map mkFresh) = some (ps.map doneModule, freshTrace 0 ps) ∧
    (freshTrace 0 ps).filterMap destroyedIdx = (List.range ps.length).reverse := by
  refine ⟨destroyFrom_fresh ps 0, ?_⟩
  rw [freshTrace_destroyedIdx ps 0, List.range_eq_range']

/-- C9 counterexample: a second `Destroy` after a completed first one is
not a no-op.  With one module (whose `OnDestroy` does not panic), the
first `Destroy` leaves it destroyed once; the second `Destroy` completes
and destroys it again (`destroyed = 2`), emitting a fresh close-signal
and destroy event and leaving a buffered close signal. -/
theorem C9_second_destroy_not_noop :
    (Destroy [mkFresh none]).bind (fun r => Destroy r.1) =
      some ([{ closeSigBuf := 1, runDone := true, destroyed := 2,
               onDestroyPanics := none }],
            [MEvent.sentClose 0, MEvent.destroyedEv 0 none]) := rfl

/-- On a registry of modules whose `Run` already returned and whose
close-signal buffers are empty (the state a completed first `Destroy`
leaves), the loop completes and destroys every module once more. -/
theorem destroyFrom_second (ps : List (Option String)) (n : Nat) :
    destroyFrom n (ps.map doneModule) =
      some (ps.map twiceModule, secondTrace n ps) := by
  induction ps generalizing n with
  | nil => rfl
  | cons p rest ih =>
    simp [destroyFrom, ih (n + 1), destroyOne, destroyMod, doneModule,
      twiceModule, secondTrace]

/-- The destroy events of a second-pass trace are again the indices in
reverse order. -/
theorem secondTrace_destroyedIdx (ps : List (Option String)) (n : Nat) :
    (secondTrace n ps).filterMap destroyedIdx = (List.range' n ps.length).reverse := by
  induction ps generalizing n with
  | nil => rfl
  | cons p rest ih =>
    simp [secondTrace, List.filterMap_append, ih (n + 1), destroyedIdx,
      List.range'_succ]

/-- C9 (amended): a second `Destroy` after a first completed one is not a
no-op: it completes without blocking (each close-signal buffer has room
and each completion latch is already released) and invokes every module's
`OnDestroy` a second time, in reverse registration order, leaving one
buffered close signal per module. -/
theorem C9_second_destroy_runs_again (ps : List (Option String)) :
    Destroy (ps.map mkFresh) = some (ps.map doneModule, freshTrace 0 ps) ∧
    Destroy (ps.map doneModule) = some (ps.map twiceModule, secondTrace 0 ps) ∧
    (secondTrace 0 ps).filterMap destroyedIdx = (List.range ps.length).reverse := by
  refine ⟨destroyFrom_fresh ps 0, destroyFrom_second ps 0, ?_⟩
  rw [secondTrace_destroyedIdx ps 0, List.range_eq_range']

/-- A non-blocking `call` either fails leaving the server untouched or
appends the call to the server queue. -/
theorem call_nonblock_effect (c : Client Id V) (s : Server Id V)
    (ci : CallInfo V) :
    (∃ e, c.call s ci false = (s, some e)) ∨
    c.call s ci false = ({ s with ChanCall := s.ChanCall ++ [ci] }, none) := by
  unfold Client.call
  split
  · exact Or.inl ⟨_, rfl⟩
  · split
    · rename_i hb; exact absurd hb (by simp)
    · split
      · exact Or.inr rfl
      · exact Or.inl ⟨_, rfl⟩

/-- Effect of the inner `asynCall`: the counter and capacity are
untouched, and either a synthetic reply was pushed onto the client's
async reply queue with the server queue untouched, or one call destined
for the async reply queue was appended to the server queue. -/
theorem asynCall_effect (c : Client Id V) (s : Server Id V) (id : Id)
    (args : List (GoVal V)) (cb : CbVal) (n : Arity) :
    ((c.asynCall s id args cb n).1.pendingAsynCall = c.pendingAsynCall ∧
     (c.asynCall s id args cb n).1.chanAsynRetCap = c.chanAsynRetCap) ∧
    ((∃ ri, (c.asynCall s id args cb n).1.ChanAsynRet = c.ChanAsynRet ++ [ri] ∧
            (c.asynCall s id args cb n).2.ChanCall = s.ChanCall) ∨
     ((c.asynCall s id args cb n).1.ChanAsynRet = c.ChanAsynRet ∧
      ∃ ci, ci.chanRet = some ChanRef.asynRet ∧
            (c.asynCall s id args cb n).2.ChanCall = s.ChanCall ++ [ci])) := by
  unfold Client.asynCall
  split
  · exact ⟨⟨rfl, rfl⟩, Or.inl ⟨_, rfl, rfl⟩⟩
  · rename_i f hf
    split
    · rename_i s2 heq
      rcases call_nonblock_effect c s
          { f := f, args := args, chanRet := some ChanRef.asynRet, cb := some cb }
          with ⟨e, he⟩ | he
      · rw [he] at heq
        exact absurd (congrArg Prod.snd heq) (by simp)
      · rw [he] at heq
        have h1 : { s with ChanCall := s.ChanCall ++
            [{ f := f, args := args, chanRet := some ChanRef.asynRet,
               cb := some cb }] } = s2 := congrArg Prod.fst heq
        refine ⟨⟨rfl, rfl⟩, Or.inr ⟨rfl,
          ⟨{ f := f, args := args, chanRet := some ChanRef.asynRet,
             cb := some cb }, rfl, ?_⟩⟩⟩
        rw [← h1]
    · rename_i s2 e heq
      rcases call_nonblock_effect c s
          { f := f, args := args, chanRet := some ChanRef.asynRet, cb := some cb }
          with ⟨e2, he⟩ | he
      · rw [he] at heq
        have h1 : s = s2 := congrArg Prod.fst heq
        refine ⟨⟨rfl, rfl⟩, Or.inl ⟨_, rfl, ?_⟩⟩
        rw [← h1]
      · rw [he] at heq
        exact absurd (congrArg Prod.snd heq) (by simp)

/-- Case analysis of `AsynCall`'s effect on the client counter, the
client's async reply queue and the server call queue: either nothing
changes (fail-fast panic or too-many-calls rejection), or the call was
admitted (counter was strictly below capacity and is incremented) and
exactly one of: a synthetic reply was pushed onto the async reply queue
with the server untouched, or one call destined for the async reply
queue was appended to the server queue. -/
theorem AsynCall_effect (c : Client Id V) (s : Server Id V) (id : Id)
    (_args : List (GoVal V)) :
    ((c.AsynCall s id _args).client.chanAsynRetCap = c.chanAsynRetCap) ∧
    (((c.AsynCall s id _args).client = c ∧ (c.AsynCall s id _args).server = s) ∨
     (c.pendingAsynCall < (c.chanAsynRetCap : Int) ∧
      (c.AsynCall s id _args).client.pendingAsynCall = c.pendingAsynCall + 1 ∧
      ((∃ ri, (c.AsynCall s id _args).client.ChanAsynRet = c.ChanAsynRet ++ [ri] ∧
              (c.AsynCall s id _args).server.ChanCall = s.ChanCall) ∨
       ((c.AsynCall s id _args).client.ChanAsynRet = c.ChanAsynRet ∧
        ∃ ci, ci.chanRet = some ChanRef.asynRet ∧
              (c.AsynCall s id _args).server.ChanCall = s.ChanCall ++ [ci])))) := by
  unfold Client.AsynCall
  split
  · exact ⟨rfl, Or.inl ⟨rfl, rfl⟩⟩
  · split
    · exact ⟨rfl, Or.inl ⟨rfl, rfl⟩⟩
    · rename_i last cb n hsh
      split
      · exact ⟨rfl, Or.inl ⟨rfl, rfl⟩⟩
      · rename_i hfull
        have hlt : c.pendingAsynCall < (c.chanAsynRetCap : Int) := lt_of_not_ge hfull
        obtain ⟨⟨hp, hcap⟩, hq⟩ := asynCall_effect c s id _args.dropLast cb n
        refine ⟨?_, Or.inr ⟨hlt, ?_, ?_⟩⟩
        · show (c.asynCall s id _args.dropLast cb n).1.chanAsynRetCap = c.chanAsynRetCap
          exact hcap
        · show (c.asynCall s id _args.dropLast cb n).1.pendingAsynCall + 1 =
            c.pendingAsynCall + 1
          rw [hp]
        · rcases hq with ⟨ri, hq1, hq2⟩ | ⟨hq1, ci, hci, hq2⟩
          · refine Or.inl ⟨ri, ?_, ?_⟩
            · show (c.asynCall s id _args.dropLast cb n).1.ChanAsynRet =
                c.ChanAsynRet ++ [ri]
              exact hq1
            · show (c.asynCall s id _args.dropLast cb n).2.ChanCall = s.ChanCall
              exact hq2
          · refine Or.inr ⟨?_, ci, hci, ?_⟩
            · show (c.asynCall s id _args.dropLast cb n).1.ChanAsynRet = c.ChanAsynRet
              exact hq1
            · show (c.asynCall s id _args.dropLast cb n).2.ChanCall =
                s.ChanCall ++ [ci]
              exact hq2

/-- The counter invariant is preserved by every step of the closed
system. -/
theorem C3inv_step (L : Nat) (st : CSState Id V) (op : Op Id V)
    (h : C3inv st) : C3inv (stepCS L st op) := by
  obtain ⟨h0, h1, h2⟩ := h
  cases op with
  | asyn id args cbArg =>
    obtain ⟨hcap, hcase⟩ := AsynCall_effect st.client st.server id (args ++ [cbArg])
    rcases hcase with ⟨hc, hs⟩ | ⟨hlt, hp, hq⟩
    · exact ⟨by simp [stepCS, hc, h0], by simp [stepCS, hc, h1],
        by simp [stepCS, hc, hs, h2]⟩
    · rcases hq with ⟨ri, hq1, hq2⟩ | ⟨hq1, ci, hci, hq2⟩
      · simp only [asynInFlight] at h2
        refine ⟨?_, ?_, ?_⟩
        · simp only [stepCS, hp]; omega
        · simp only [stepCS, hp, hcap]; omega
        · simp only [stepCS, hp, hq1, hq2, asynInFlight, List.length_append,
            List.length_singleton]
          push_cast at h2 ⊢
          omega
      · simp only [asynInFlight] at h2
        refine ⟨?_, ?_, ?_⟩
        · simp only [stepCS, hp]; omega
        · simp only [stepCS, hp, hcap]; omega
        · simp [stepCS, hp, hq1, hq2, asynInFlight, List.filter_append,
            List.filter_cons, hci]
          omega
  | srv =>
    cases hq : st.server.ChanCall with
    | nil => exact ⟨by simp [stepCS, hq, h0], by simp [stepCS, hq, h1],
        by simp [stepCS, hq, h2]⟩
    | cons ci rest =>
      simp only [asynInFlight, hq, List.filter_cons] at h2
      cases hcr : ci.chanRet with
      | none =>
        simp only [hcr] at h2
        refine ⟨?_, ?_, ?_⟩
        · simp only [stepCS, hq, hcr]; exact h0
        · simp only [stepCS, hq, hcr]; exact h1
        · simp only [stepCS, hq, hcr, asynInFlight]
          simpa using h2
      | some r =>
        cases r with
        | syncRet =>
          simp only [hcr] at h2
          refine ⟨?_, ?_, ?_⟩
          · simp only [stepCS, hq, hcr]; exact h0
          · simp only [stepCS, hq, hcr]; exact h1
          · simp only [stepCS, hq, hcr, asynInFlight]
            simpa using h2
        | asynRet =>
          simp only [hcr] at h2
          have hlen : (st.server.Exec L ci).length = 1 := by
            apply exec_deliv_length
            rw [hcr]; rfl
          refine ⟨?_, ?_, ?_⟩
          · simp only [stepCS, hq, hcr]; exact h0
          · simp only [stepCS, hq, hcr]; exact h1
          · simp only [stepCS, hq, hcr, asynInFlight, List.length_append, hlen]
            simp at h2 ⊢
            omega
  | cbRecv =>
    cases hq : st.client.ChanAsynRet with
    | nil => exact ⟨by simp [stepCS, hq, h0], by simp [stepCS, hq, h1],
        by simp [stepCS, hq, h2]⟩
    | cons ri rest =>
      rw [hq] at h2
      refine ⟨?_, ?_, ?_⟩
      · simp only [stepCS, hq, Client.Cb]
        simp only [List.length_cons] at h2
        push_cast at h2 ⊢
        omega
      · simp only [stepCS, hq, Client.Cb]
        omega
      · simp only [stepCS, hq, Client.Cb, asynInFlight]
        simp only [List.length_cons, asynInFlight] at h2
        push_cast at h2 ⊢
        omega

/-- The counter invariant holds along any run from a given state. -/
theorem C3inv_runCS (L : Nat) (ops : List (Op Id V)) (st : CSState Id V)
    (h : C3inv st) : C3inv (runCS L st ops) := by
  induction ops generalizing st with
  | nil => exact h
  | cons op rest ih => exact ih (stepCS L st op) (C3inv_step L st op h)

/-- The initial closed system satisfies the counter invariant. -/
theorem C3inv_init (cap l : Nat) : C3inv (initCS cap l : CSState Id V) := by
  refine ⟨le_refl 0, ?_, ?_⟩ <;>
    simp [initCS, NewClient, Client.Attach, NewServer, asynInFlight]

/-- C3 (amended): along every interleaving of `AsynCall`, server `Exec`
and client `Cb` operations from a fresh client of capacity `AsynCallLen`
attached to a fresh server, the outstanding counter `pendingAsynCall`
stays within `[0, AsynCallLen]` and equals the number of admitted async
calls whose callback has not yet run — which is the number of replies
queued on the async reply queue plus the number of calls still in flight
at the server.  (The code's counter counts every admitted call, including
those whose enqueue failed and received a synthetic error reply, not only
successful enqueues.) -/
theorem C3_counter_invariant (cap l L : Nat) (ops : List (Op Id V)) :
    C3inv (runCS L (initCS cap l) ops) :=
  C3inv_runCS L ops (initCS cap l) (C3inv_init cap l)

/-- C3 counterexample: one `AsynCall` on an unregistered id (fresh
capacity-1 client, fresh server).  The enqueue fails — `enqOk = 0`
successful enqueues ever happened and no callback has run — yet
`pendingAsynCall = 1`, so the counter does not equal the number of
successful enqueues whose callback has not yet run (which is 0). -/
theorem C3_pending_without_successful_enqueue :
    (runCS 0 (initCS 1 1 : CSState Nat Nat)
        [Op.asyn 7 [] (GoVal.cbv ⟨0, CbShape.sh0⟩)]).client.pendingAsynCall = 1 ∧
    (runCS 0 (initCS 1 1 : CSState Nat Nat)
        [Op.asyn 7 [] (GoVal.cbv ⟨0, CbShape.sh0⟩)]).enqOk = 0 ∧
    (runCS 0 (initCS 1 1 : CSState Nat Nat)
        [Op.asyn 7 [] (GoVal.cbv ⟨0, CbShape.sh0⟩)]).events = [] := by
  refine ⟨by decide, by decide, by decide⟩

end Leaf
